import Mathlib

/-!
Shallow embedding of the background transcription-job registries of the
auto-to-text-converter repository and proofs about them.

Three HTTP front ends carry such a registry:

* `src/enhanced_web_converter.py` — module-global dict `transcription_jobs`
  keyed by `str(job_counter)` (counter incremented under `job_lock`);
  submit handler `handle_file_transcription`, worker `transcribe_audio_file`,
  poll endpoint `/api/job_status` in `do_GET`.
* `src/web_converter.py` — per-server dict `processing_jobs` keyed by
  `str(uuid.uuid4())`; submit in `do_POST` (`/api/transcribe`, multipart),
  worker `_process_audio_background`, poll `/api/status/<id>` in `do_GET`.
* `src/simple_web_converter.py` — like web_converter but JSON/base64 submit
  (`/api/convert`) and a Whisper-only worker.

Pure data is embedded directly; each worker is embedded as the list of
writes it performs on its job's registry entry (one list element per Python
statement that mutates the dict entry; a single `dict.update({...})` call is
one element), so that every dict state a concurrent poller could observe is
an entry of the `scanl` trace of those writes.  External collaborators
(base64 decoding, tempfile staging, Whisper model loading, the speech
engines, `uuid.uuid4()`, `time.time()`) are opaque parameters: fallible ones
are `Except String`-valued arguments, the uuid source is an abstract stream
indexed by the number of draws, timestamps are `Nat` arguments.
-/

/-- Job status strings stored in the registries: `'queued'`, `'processing'`,
`'completed'`, `'error'`. -/
inductive Status where
  | queued
  | processing
  | completed
  | error
deriving DecidableEq, Repr, Inhabited

/-- Position of a status along the lifecycle
`queued → processing → {completed | error}` (both terminal states share the
final position). -/
def Status.rank : Status → Nat
  | .queued => 0
  | .processing => 1
  | .completed => 2
  | .error => 2

/-- The statuses `completed` and `error` are terminal. -/
def Status.isTerminal : Status → Bool
  | .completed => true
  | .error => true
  | _ => false

/-- Outcome of a submit request: the JSON success response carrying the job
id, or the error response produced when the handler raises/rejects (HTTP 500
with `success: false` in web/simple, HTTP 500 via `send_error` in enhanced). -/
inductive SubmitResult where
  | ok (jobId : String)
  | err (msg : String)
deriving DecidableEq, Repr

/-- One step of a worker trace: apply the next registry write to the job
record.  `List.scanl applyWrite j ws` is then every state of the record,
starting from the freshly inserted one. -/
def applyWrite {α : Type} (j : α) (w : α → α) : α := w j

/-- All job-record states a poller could observe, given the inserted record
and the worker's write sequence. -/
def writeTrace {α : Type} (init : α) (ws : List (α → α)) : List α :=
  List.scanl applyWrite init ws

/-- Status projection of a trace. -/
def statusesOf {α : Type} (status : α → Status) (tr : List α) : List Status :=
  tr.map status

/-- One step of a status sequence is admissible when it does not move
backwards along `queued → processing → terminal` and does not leave a
terminal status. -/
def stepOk (a b : Status) : Bool :=
  Nat.ble a.rank b.rank && (!a.isTerminal || (b == a))

/-- All adjacent steps of a status sequence are admissible. -/
def adjacentOk : List Status → Bool
  | [] => true
  | [_] => true
  | a :: b :: rest => stepOk a b && adjacentOk (b :: rest)

/-- Global absorption: any observation at or after a terminal observation
equals it. -/
def absorbing (l : List Status) : Prop :=
  ∀ i j : Fin l.length, i.val ≤ j.val → (l.get i).isTerminal = true →
    l.get j = l.get i

/-- A status sequence is lifecycle-monotone: adjacent observations never move
backwards along `queued → processing → terminal`, and a terminal observation
is never followed by a different status. -/
def statusChainOk (l : List Status) : Prop :=
  adjacentOk l = true ∧ absorbing l

theorem stepOk_rank {a b : Status} (h : stepOk a b = true) : a.rank ≤ b.rank := by
  cases a <;> cases b <;> simp_all [stepOk, Status.rank]

theorem stepOk_terminal {a b : Status} (h : stepOk a b = true)
    (ht : a.isTerminal = true) : b = a := by
  cases a <;> cases b <;> simp_all [stepOk, Status.isTerminal]

theorem adjacentOk_tail {a : Status} {l : List Status}
    (h : adjacentOk (a :: l) = true) : adjacentOk l = true := by
  cases l with
  | nil => rfl
  | cons b rest => exact (Bool.and_eq_true_iff.mp h).2

theorem adjacentOk_get {l : List Status} (h : adjacentOk l = true) :
    ∀ k (hk1 : k + 1 < l.length),
      stepOk (l.get ⟨k, Nat.lt_of_succ_lt hk1⟩) (l.get ⟨k + 1, hk1⟩) = true := by
  induction l with
  | nil => intro k hk1; simp at hk1
  | cons a rest ih =>
    intro k hk1
    cases k with
    | zero =>
      cases rest with
      | nil => simp at hk1
      | cons b r2 => exact (Bool.and_eq_true_iff.mp h).1
    | succ k2 =>
      have h2 := adjacentOk_tail h
      exact ih h2 k2 (by simpa using hk1)

theorem absorbing_of_adjacentOk {l : List Status} (h : adjacentOk l = true) :
    absorbing l := by
  have haux : ∀ (d k : Nat) (hk : k < l.length) (hkd : k + d < l.length),
      (l.get ⟨k, hk⟩).isTerminal = true →
      l.get ⟨k + d, hkd⟩ = l.get ⟨k, hk⟩ := by
    intro d
    induction d with
    | zero => intro k hk hkd _; rfl
    | succ d2 ih =>
      intro k hk hkd hterm
      have hkd2 : k + d2 < l.length := by omega
      have hstep := adjacentOk_get h (k + d2) (by omega)
      have hprev : l.get ⟨k + d2, hkd2⟩ = l.get ⟨k, hk⟩ := ih k hk hkd2 hterm
      have hterm2 : (l.get ⟨k + d2, hkd2⟩).isTerminal = true := by
        rw [hprev]; exact hterm
      have := stepOk_terminal (a := l.get ⟨k + d2, hkd2⟩)
        (b := l.get ⟨k + d2 + 1, by omega⟩) (by
          have heq : (⟨k + d2, Nat.lt_of_succ_lt (by omega)⟩ : Fin l.length) =
            ⟨k + d2, hkd2⟩ := rfl
          simpa [heq] using hstep) hterm2
      have hfin : (⟨k + (d2 + 1), hkd⟩ : Fin l.length) =
          ⟨k + d2 + 1, by omega⟩ := by
        apply Fin.ext; simp [Nat.add_assoc]
      rw [hfin, this, hprev]
  intro i j hij hterm
  have hj : j = ⟨i.val + (j.val - i.val), by omega⟩ := by
    apply Fin.ext; simp; omega
  rw [hj]
  exact haux (j.val - i.val) i.val i.isLt (by omega) (by
    have hi : (⟨i.val, i.isLt⟩ : Fin l.length) = i := rfl
    rw [hi]; exact hterm)

namespace Enhanced

/-- One entry of `transcription_jobs` in `src/enhanced_web_converter.py`.
The Python dict always carries `status`, `progress` and `filename` from the
moment of insertion; `result` and `error` are keys that may be added later,
hence `Option`. -/
structure Job where
  status : Status
  progress : Nat
  filename : String
  result : Option String := none
  error : Option String := none
deriving DecidableEq, Repr, Inhabited

/-- The module-global registry state: the `transcription_jobs` dict (newest
entry first) and the `job_counter` protected by `job_lock`. -/
structure Registry where
  jobs : List (String × Job)
  counter : Nat

/-- The submit handler `handle_file_transcription`
(src/enhanced_web_converter.py, lines 100-133), from the point where the
request JSON has been parsed:
`audio_data = base64.b64decode(data['audio'])` — a missing `audio` key is a
`KeyError` that propagates to `do_POST`'s handler (500), and a malformed
base64 string raises in `b64decode` likewise; `decode` is the opaque
base64 decoder.  On success it increments `job_counter` under the lock,
takes `job_id = str(job_counter)`, inserts
`{'status': 'processing', 'progress': 0, 'filename': filename}`, spawns the
worker thread and returns the job id.  There is no emptiness check on the
decoded payload. -/
def handle_file_transcription (decode : String → Except String (List Nat))
    (st : Registry) (audioB64 : Option String) (filename : Option String) :
    SubmitResult × Registry :=
  match audioB64 with
  | none => (.err "KeyError: audio", st)
  | some s =>
    match decode s with
    | .error e => (.err e, st)
    | .ok _audio =>
      let c := st.counter + 1
      let jid := Nat.repr c
      (.ok jid,
       { counter := c,
         jobs := (jid,
           { status := .processing, progress := 0,
             filename := filename.getD "audio.wav" }) :: st.jobs })

/-- Opaque outcomes of the external calls made by `transcribe_audio_file`:
whether Whisper imported at module load, the tempfile staging of the
payload (uncaught there, so an exception lands in the outer handler),
`whisper.load_model("base")`, and `model.transcribe(...)` returning the raw
`result["text"]`. -/
structure Env where
  whisperAvailable : Bool
  staging : Except String Unit
  loadModel : Except String Unit
  transcribeRun : Except String String

/-- Sentinel text stored when the stripped transcription is empty. -/
def noSpeechText : String := "No speech detected in the audio file."

/-- Error message written when Whisper failed to import. -/
def whisperMissingMsg : String :=
  "Whisper not available. Please install with: pip install openai-whisper"

/-- The sequence of writes `transcribe_audio_file`
(src/enhanced_web_converter.py, lines 217-304) performs on
`transcription_jobs[job_id]`, one list element per mutating statement, in
source order: progress 10; if Whisper is unavailable, status then error and
return; tempfile staging (an exception reaches the outer handler, which
writes status then error); progress 30; progress 50; model load (on failure
status then error, return); progress 70; transcribe (on failure status then
error, return); on success progress 90, then status `completed`, then
`result`, then progress 100 — three separate statements end the success
path after progress 90. -/
def transcribe_audio_file_writes (env : Env) : List (Job → Job) :=
  (fun j => { j with progress := 10 }) ::
  (if env.whisperAvailable = false then
    [fun j => { j with status := .error },
     fun j => { j with error := some whisperMissingMsg }]
  else
    match env.staging with
    | .error e =>
      [fun j => { j with status := .error },
       fun j => { j with error := some ("Transcription failed: " ++ e) }]
    | .ok _ =>
      (fun j => { j with progress := 30 }) ::
      (fun j => { j with progress := 50 }) ::
      match env.loadModel with
      | .error e =>
        [fun j => { j with status := .error },
         fun j => { j with error := some ("Failed to load Whisper model: " ++ e) }]
      | .ok _ =>
        (fun j => { j with progress := 70 }) ::
        match env.transcribeRun with
        | .error e =>
          [fun j => { j with status := .error },
           fun j => { j with error := some ("Transcription failed: " ++ e) }]
        | .ok t =>
          let text := if t.trim = "" then noSpeechText else t.trim
          [fun j => { j with progress := 90 },
           fun j => { j with status := .completed },
           fun j => { j with result := some text },
           fun j => { j with progress := 100 }])

/-- The record inserted by `handle_file_transcription` for a given
filename field. -/
def initJob (filename : String) : Job :=
  { status := .processing, progress := 0, filename := filename }

/-- Every state of a job's registry entry from insertion through the
worker's last write. -/
def jobTrace (env : Env) (filename : String) : List Job :=
  writeTrace (initJob filename) (transcribe_audio_file_writes env)

/-- The not-found JSON body of `/api/job_status`:
`{'status': 'not_found', 'error': 'Job not found'}`. -/
def notFoundResponse : List (String × String) :=
  [("status", "not_found"), ("error", "Job not found")]

/-- Status strings as stored/emitted by the Python code. -/
def statusString : Status → String
  | .queued => "queued"
  | .processing => "processing"
  | .completed => "completed"
  | .error => "error"

/-- The `/api/job_status` branch of `do_GET`
(src/enhanced_web_converter.py, lines 48-64): `job_id` comes from the query
string (`None` when absent); `if job_id and job_id in transcription_jobs`
(a present but empty id is falsy) answers with the snapshot dict, else with
the not-found dict. -/
def job_status_response (jobs : List (String × Job)) (jobId : Option String) :
    List (String × String) :=
  match jobId with
  | none => notFoundResponse
  | some id =>
    if id = "" then notFoundResponse
    else
      match jobs.lookup id with
      | none => notFoundResponse
      | some j =>
        [("status", statusString j.status),
         ("progress", Nat.repr j.progress),
         ("result", j.result.getD ""),
         ("error", j.error.getD "")]

/-- The whole `/api/job_status` GET handler as a state transformer: it only
reads the registry. -/
def do_GET_job_status (st : Registry) (jobId : Option String) :
    List (String × String) × Registry :=
  (job_status_response st.jobs jobId, st)

end Enhanced

namespace Web

/-- One entry of `processing_jobs` in `src/web_converter.py`.  The insert in
`do_POST` sets `status`, `progress`, `engine`, `language`, `created_at`;
`success`, `text` and `error` are keys added later by
`_process_audio_background`'s `update` calls. -/
structure Job where
  status : Status
  progress : Nat
  engine : String
  language : String
  createdAt : Nat
  success : Option Bool := none
  text : Option String := none
  error : Option String := none
deriving DecidableEq, Repr, Inhabited

/-- The server's registry: the `processing_jobs` dict (newest entry first)
plus the opaque `uuid.uuid4()` source, modelled as a stream of tokens
indexed by how many have been drawn so far. -/
structure Registry where
  jobs : List (String × Job)
  uuidStream : Nat → String
  drawn : Nat

/-- The `/api/transcribe` branch of `do_POST` (src/web_converter.py, lines
970-1094), from the point where the multipart body has been split into the
extracted `audio_data` (`None` when no `audio` part parsed), `engine` and
`language`.  `if not audio_data or len(audio_data) < 100: raise
ValueError("No valid audio data received")` — caught by the handler's
`except`, which answers 500 `success: false` with the message and creates
no job.  Otherwise `job_id = str(uuid.uuid4())`, the record
`{'status': 'queued', 'progress': 0, 'engine': engine, 'language':
language, 'created_at': time.time()}` is inserted, the worker thread is
spawned and the id is returned. -/
def do_POST (st : Registry) (audioData : Option (List Nat))
    (engine language : String) (now : Nat) : SubmitResult × Registry :=
  match audioData with
  | none => (.err "No valid audio data received", st)
  | some a =>
    if a.length < 100 then (.err "No valid audio data received", st)
    else
      let jid := st.uuidStream st.drawn
      (.ok jid,
       { st with
         drawn := st.drawn + 1,
         jobs := (jid,
           { status := .queued, progress := 0, engine := engine,
             language := language, createdAt := now }) :: st.jobs })

/-- Outcome of the Google branch's guarded block: normal return of
`recognize_google`, `sr.UnknownValueError`, `sr.RequestError`, or any other
exception. -/
inductive GoogleOutcome where
  | ok (text : String)
  | unknownValue
  | requestError (msg : String)
  | otherError (msg : String)
deriving DecidableEq, Repr

/-- Opaque outcomes of the external calls made by
`_process_audio_background`: writing the payload to the temp file (an
exception there reaches the outer handler), the engine/availability flags
captured by the branch conditions, the Whisper block (load + transcribe,
returning the raw `result["text"]`) and the Google block. -/
structure Env where
  staging : Except String Unit
  engine : String
  whisperAvailable : Bool
  srAvailable : Bool
  whisperRun : Except String String
  googleRun : GoogleOutcome

/-- Error message of the final `else` branch of the engine dispatch. -/
def engineUnavailableMsg (env : Env) : String :=
  "Engine \x27" ++ env.engine ++ "\x27 not available. Available engines: " ++
    String.intercalate ", "
      ((if env.srAvailable then ["google"] else []) ++
       (if env.whisperAvailable then ["whisper"] else []))

/-- Message of the Google `UnknownValueError` branch. -/
def couldNotUnderstandMsg : String :=
  "Could not understand audio - try speaking more clearly or use a different audio file"

/-- The sequence of writes `_process_audio_background`
(src/web_converter.py, lines 831-934) performs on
`processing_jobs[job_id]`, one list element per mutating statement: if
staging raises, the outer handler does one `update` to an error record;
otherwise status `processing`, then progress 50 (two statements), then one
engine branch, each arm ending in a single `update` call; temp-file cleanup
performs no writes. -/
def process_audio_background_writes (env : Env) : List (Job → Job) :=
  match env.staging with
  | .error e =>
    [fun j => { j with status := .error, success := some false,
                       error := some ("Unexpected error: " ++ e) }]
  | .ok _ =>
    (fun j => { j with status := .processing }) ::
    (fun j => { j with progress := 50 }) ::
    (if env.engine = "whisper" ∧ env.whisperAvailable = true then
      match env.whisperRun with
      | .ok t =>
        [fun j => { j with status := .completed, success := some true,
                           text := some t.trim, progress := 100 }]
      | .error e =>
        [fun j => { j with status := .error, success := some false,
                           error := some ("Whisper processing failed: " ++ e) }]
    else if env.engine = "google" ∧ env.srAvailable = true then
      match env.googleRun with
      | .ok t =>
        [fun j => { j with status := .completed, success := some true,
                           text := some t, progress := 100 }]
      | .unknownValue =>
        [fun j => { j with status := .completed, success := some false,
                           error := some couldNotUnderstandMsg }]
      | .requestError e =>
        [fun j => { j with status := .error, success := some false,
                           error := some ("Google Speech Recognition error: " ++ e) }]
      | .otherError e =>
        [fun j => { j with status := .error, success := some false,
                           error := some ("Processing failed: " ++ e) }]
    else
      [fun j => { j with status := .error, success := some false,
                         error := some (engineUnavailableMsg env) }])

/-- The record inserted by `do_POST`. -/
def initJob (engine language : String) (now : Nat) : Job :=
  { status := .queued, progress := 0, engine := engine,
    language := language, createdAt := now }

/-- Every state of a job's registry entry from insertion through the
worker's last write. -/
def jobTrace (env : Env) (language : String) (now : Nat) : List Job :=
  writeTrace (initJob env.engine language now) (process_audio_background_writes env)

/-- Response of the `/api/status/<id>` branch of `do_GET`
(src/web_converter.py, lines 940-965): the full job dict serialized when
the id is known, else the literal dict
`{'status': 'error', 'error': 'Job not found'}`. -/
inductive PollResponse where
  | snapshot (j : Job)
  | notFound
deriving DecidableEq, Repr

/-- The status-poll branch of `do_GET` as a state transformer: it only reads
the registry. -/
def do_GET_status (st : Registry) (jobId : String) : PollResponse × Registry :=
  match st.jobs.lookup jobId with
  | some j => (.snapshot j, st)
  | none => (.notFound, st)

end Web

namespace Simple

/-- One entry of `processing_jobs` in `src/simple_web_converter.py` at the
moment of insertion by `do_POST`. -/
structure Job where
  status : Status
  progress : Nat
  filename : String
  createdAt : Nat
deriving DecidableEq, Repr, Inhabited

/-- The server's registry with its opaque uuid source. -/
structure Registry where
  jobs : List (String × Job)
  uuidStream : Nat → String
  drawn : Nat

/-- The `/api/convert` branch of `do_POST` (src/simple_web_converter.py,
lines 663-733), from the point where the request JSON has been parsed:
`audio_data_b64 = data.get('audio_data')`; `if not audio_data_b64: raise
ValueError("No audio data received")` — so a missing key or an empty string
is rejected by the handler's `except` (500, `success: false`) before any
job exists; then `base64.b64decode` (opaque `decode`, whose exception lands
in the same handler), `job_id = str(uuid.uuid4())`, insertion of
`{'status': 'queued', 'progress': 0, 'filename': filename, 'created_at':
time.time()}`, thread spawn, and the success response with the id. -/
def do_POST (decode : String → Except String (List Nat)) (st : Registry)
    (audioB64 : Option String) (filename : Option String) (now : Nat) :
    SubmitResult × Registry :=
  match audioB64 with
  | none => (.err "No audio data received", st)
  | some s =>
    if s = "" then (.err "No audio data received", st)
    else
      match decode s with
      | .error e => (.err e, st)
      | .ok _audio =>
        let jid := st.uuidStream st.drawn
        (.ok jid,
         { st with
           drawn := st.drawn + 1,
           jobs := (jid,
             { status := .queued, progress := 0,
               filename := filename.getD "audio.wav",
               createdAt := now }) :: st.jobs })

end Simple

/-! ### Decimal representation: `str(n)` is injective

`job_id = str(job_counter)` in the enhanced converter is `Nat.repr` in the
embedding; distinctness of the ids needs its injectivity, proved here by
decoding the digit string back to the number. -/

/-- Numeric value of a decimal digit character. -/
def decDigit (c : Char) : Nat := c.toNat - 48

/-- Decimal value of a most-significant-first digit string. -/
def decValue (l : List Char) : Nat :=
  l.foldl (fun a c => a * 10 + decDigit c) 0

theorem decDigit_digitChar : ∀ d : Nat, d < 10 →
    decDigit (Nat.digitChar d) = d := by decide

theorem toDigitsCore_append_eq (fuel : Nat) : ∀ (n : Nat) (ds : List Char),
    Nat.toDigitsCore 10 fuel n ds = Nat.toDigitsCore 10 fuel n [] ++ ds := by
  induction fuel with
  | zero => intro n ds; simp [Nat.toDigitsCore]
  | succ f ih =>
    intro n ds
    simp only [Nat.toDigitsCore]
    by_cases h : n / 10 = 0
    · simp [h]
    · simp only [if_neg h]
      rw [ih (n / 10) (Nat.digitChar (n % 10) :: ds),
        ih (n / 10) [Nat.digitChar (n % 10)], List.append_assoc]
      rfl

theorem decValue_toDigitsCore : ∀ (fuel n : Nat), n < fuel →
    decValue (Nat.toDigitsCore 10 fuel n []) = n := by
  intro fuel
  induction fuel with
  | zero => intro n h; exact absurd h (Nat.not_lt_zero n)
  | succ f ih =>
    intro n h
    simp only [Nat.toDigitsCore]
    by_cases h0 : n / 10 = 0
    · have hn : n < 10 := by
        rcases Nat.lt_or_ge n 10 with h10 | h10
        · exact h10
        · exact absurd h0 (by
            have h1 : 10 / 10 ≤ n / 10 := Nat.div_le_div_right h10
            simp at h1
            omega)
      simp only [if_pos h0]
      show 0 * 10 + decDigit (Nat.digitChar (n % 10)) = n
      rw [decDigit_digitChar (n % 10) (Nat.mod_lt n (by norm_num))]
      omega
    · have hpos : 0 < n := by
        rcases Nat.eq_zero_or_pos n with rfl | hp
        · simp at h0
        · exact hp
      have hdiv : n / 10 < n := Nat.div_lt_self hpos (by norm_num)
      have hf : n / 10 < f := by omega
      simp only [if_neg h0]
      rw [toDigitsCore_append_eq f (n / 10) [Nat.digitChar (n % 10)]]
      show decValue (Nat.toDigitsCore 10 f (n / 10) [] ++ [Nat.digitChar (n % 10)]) = n
      unfold decValue
      rw [List.foldl_append]
      show (decValue (Nat.toDigitsCore 10 f (n / 10) [])) * 10 +
        decDigit (Nat.digitChar (n % 10)) = n
      rw [ih (n / 10) hf, decDigit_digitChar (n % 10) (Nat.mod_lt n (by norm_num))]
      omega

theorem natRepr_injective : Function.Injective Nat.repr := by
  intro a b h
  have hdata : Nat.toDigits 10 a = Nat.toDigits 10 b := by
    have h2 := congrArg String.data h
    simpa [Nat.repr, List.asString] using h2
  have ha := decValue_toDigitsCore (a + 1) a (Nat.lt_succ_self a)
  have hb := decValue_toDigitsCore (b + 1) b (Nat.lt_succ_self b)
  rw [Nat.toDigits, Nat.toDigits] at hdata
  rw [← ha, ← hb, hdata]

/-- A string with a nonempty prefix is nonempty. -/
theorem append_ne_empty_left (p q : String) (hp : p ≠ "") : p ++ q ≠ "" := by
  intro h
  apply hp
  have h2 := congrArg String.data h
  simp [String.data_append] at h2
  cases h2 with
  | intro h3 h4 => exact String.ext (by simp [h3])

/-! ### Lifetimes of the registries: sequences of submit calls

`runEnhancedSubmits`/`runWebSubmits` fold a list of requests through the
respective submit handler (the `job_lock` serialises the enhanced handler's
critical section, so a lifetime is a sequence), collecting the job ids of
the accepted submissions. -/

def runEnhancedSubmits (decode : String → Except String (List Nat)) :
    Enhanced.Registry → List (Option String × Option String) →
    List String × Enhanced.Registry
  | st, [] => ([], st)
  | st, r :: rs =>
    let p := Enhanced.handle_file_transcription decode st r.1 r.2
    let q := runEnhancedSubmits decode p.2 rs
    (match p.1 with
     | .ok jid => jid :: q.1
     | .err _ => q.1, q.2)

def runWebSubmits :
    Web.Registry → List (Option (List Nat) × String × String × Nat) →
    List String × Web.Registry
  | st, [] => ([], st)
  | st, r :: rs =>
    let p := Web.do_POST st r.1 r.2.1 r.2.2.1 r.2.2.2
    let q := runWebSubmits p.2 rs
    (match p.1 with
     | .ok jid => jid :: q.1
     | .err _ => q.1, q.2)


theorem enhanced_submit_cases (decode : String → Except String (List Nat))
    (st : Enhanced.Registry) (a f : Option String) :
    (∃ m, Enhanced.handle_file_transcription decode st a f = (.err m, st)) ∨
    (∃ st', Enhanced.handle_file_transcription decode st a f =
        (.ok (Nat.repr (st.counter + 1)), st') ∧
      st'.counter = st.counter + 1) := by
  cases a with
  | none => exact Or.inl ⟨_, rfl⟩
  | some s =>
    cases hd : decode s with
    | error e =>
      exact Or.inl ⟨e, by simp [Enhanced.handle_file_transcription, hd]⟩
    | ok audio =>
      refine Or.inr ⟨{ counter := st.counter + 1,
                       jobs := (Nat.repr (st.counter + 1),
                         { status := .processing, progress := 0,
                           filename := f.getD "audio.wav" }) :: st.jobs },
        ?_, rfl⟩
      simp [Enhanced.handle_file_transcription, hd]

theorem runEnhancedSubmits_ids (decode : String → Except String (List Nat)) :
    ∀ (rs : List (Option String × Option String)) (st : Enhanced.Registry),
      st.counter ≤ (runEnhancedSubmits decode st rs).2.counter ∧
      ∀ jid ∈ (runEnhancedSubmits decode st rs).1, ∃ k, jid = Nat.repr k ∧
        st.counter < k ∧ k ≤ (runEnhancedSubmits decode st rs).2.counter := by
  intro rs
  induction rs with
  | nil => intro st; simp [runEnhancedSubmits]
  | cons r rs ih =>
    intro st
    rcases enhanced_submit_cases decode st r.1 r.2 with ⟨m, hm⟩ | ⟨st', hok, hc'⟩
    · have hrun : runEnhancedSubmits decode st (r :: rs) =
        runEnhancedSubmits decode st rs := by
        simp [runEnhancedSubmits, hm]
      rw [hrun]
      exact ih st
    · have hrun1 : (runEnhancedSubmits decode st (r :: rs)).1 =
        Nat.repr (st.counter + 1) :: (runEnhancedSubmits decode st' rs).1 := by
        simp [runEnhancedSubmits, hok]
      have hrun2 : (runEnhancedSubmits decode st (r :: rs)).2 =
        (runEnhancedSubmits decode st' rs).2 := by
        simp [runEnhancedSubmits, hok]
      rw [hrun1, hrun2]
      obtain ⟨hc, hids⟩ := ih st'
      rw [hc'] at hc
      refine ⟨by omega, ?_⟩
      intro jid hjid
      rcases List.mem_cons.mp hjid with rfl | hmem
      · exact ⟨st.counter + 1, rfl, Nat.lt_succ_self _, hc⟩
      · obtain ⟨k, hk, hlt, hle⟩ := hids jid hmem
        rw [hc'] at hlt
        exact ⟨k, hk, by omega, hle⟩

theorem runEnhancedSubmits_pairwise (decode : String → Except String (List Nat)) :
    ∀ (rs : List (Option String × Option String)) (st : Enhanced.Registry),
      ((runEnhancedSubmits decode st rs).1).Pairwise (· ≠ ·) := by
  intro rs
  induction rs with
  | nil => intro st; simp [runEnhancedSubmits]
  | cons r rs ih =>
    intro st
    rcases enhanced_submit_cases decode st r.1 r.2 with ⟨m, hm⟩ | ⟨st', hok, hc'⟩
    · have hrun : runEnhancedSubmits decode st (r :: rs) =
        runEnhancedSubmits decode st rs := by
        simp [runEnhancedSubmits, hm]
      rw [hrun]; exact ih st
    · have hrun1 : (runEnhancedSubmits decode st (r :: rs)).1 =
        Nat.repr (st.counter + 1) :: (runEnhancedSubmits decode st' rs).1 := by
        simp [runEnhancedSubmits, hok]
      rw [hrun1]
      refine List.pairwise_cons.mpr ⟨?_, ih _⟩
      intro jid hjid heq
      obtain ⟨_, hids⟩ := runEnhancedSubmits_ids decode rs st'
      obtain ⟨k, hk, hlt, _⟩ := hids jid hjid
      rw [hk] at heq
      have hkk := natRepr_injective heq
      rw [hc'] at hlt
      omega

theorem web_submit_cases (st : Web.Registry) (a : Option (List Nat))
    (e l : String) (now : Nat) :
    (Web.do_POST st a e l now = (.err "No valid audio data received", st)) ∨
    (∃ st', Web.do_POST st a e l now = (.ok (st.uuidStream st.drawn), st') ∧
      st'.uuidStream = st.uuidStream ∧ st'.drawn = st.drawn + 1) := by
  cases a with
  | none => exact Or.inl rfl
  | some bytes =>
    by_cases hlen : bytes.length < 100
    · exact Or.inl (by simp [Web.do_POST, hlen])
    · refine Or.inr ⟨{ jobs := (st.uuidStream st.drawn,
                         { status := .queued, progress := 0, engine := e,
                           language := l, createdAt := now }) :: st.jobs,
                       uuidStream := st.uuidStream,
                       drawn := st.drawn + 1 },
        ?_, rfl, rfl⟩
      simp [Web.do_POST, hlen]

theorem runWebSubmits_ids :
    ∀ (rs : List (Option (List Nat) × String × String × Nat)) (st : Web.Registry),
      (runWebSubmits st rs).2.uuidStream = st.uuidStream ∧
      st.drawn ≤ (runWebSubmits st rs).2.drawn ∧
      ∀ jid ∈ (runWebSubmits st rs).1, ∃ k, jid = st.uuidStream k ∧
        st.drawn ≤ k ∧ k < (runWebSubmits st rs).2.drawn := by
  intro rs
  induction rs with
  | nil => intro st; simp [runWebSubmits]
  | cons r rs ih =>
    intro st
    rcases web_submit_cases st r.1 r.2.1 r.2.2.1 r.2.2.2 with hm | ⟨st', hok, hu', hd'⟩
    · have hrun : runWebSubmits st (r :: rs) = runWebSubmits st rs := by
        simp [runWebSubmits, hm]
      rw [hrun]; exact ih st
    · have hrun1 : (runWebSubmits st (r :: rs)).1 =
        st.uuidStream st.drawn :: (runWebSubmits st' rs).1 := by
        simp [runWebSubmits, hok]
      have hrun2 : (runWebSubmits st (r :: rs)).2 = (runWebSubmits st' rs).2 := by
        simp [runWebSubmits, hok]
      rw [hrun1, hrun2]
      obtain ⟨hus, hd, hids⟩ := ih st'
      rw [hu'] at hus
      rw [hd'] at hd
      refine ⟨hus, by omega, ?_⟩
      intro jid hjid
      rcases List.mem_cons.mp hjid with rfl | hmem
      · exact ⟨st.drawn, rfl, le_refl _, by omega⟩
      · obtain ⟨k, hk, hge, hlt⟩ := hids jid hmem
        rw [hu'] at hk
        rw [hd'] at hge
        exact ⟨k, hk, by omega, hlt⟩

theorem runWebSubmits_pairwise (st : Web.Registry)
    (hinj : Function.Injective st.uuidStream) :
    ∀ (rs : List (Option (List Nat) × String × String × Nat)),
      ∀ st2 : Web.Registry, st2.uuidStream = st.uuidStream →
      ((runWebSubmits st2 rs).1).Pairwise (· ≠ ·) := by
  intro rs
  induction rs with
  | nil => intro st2 _; simp [runWebSubmits]
  | cons r rs ih =>
    intro st2 hst2
    rcases web_submit_cases st2 r.1 r.2.1 r.2.2.1 r.2.2.2 with hm | ⟨st', hok, hu', hd'⟩
    · have hrun : runWebSubmits st2 (r :: rs) = runWebSubmits st2 rs := by
        simp [runWebSubmits, hm]
      rw [hrun]; exact ih st2 hst2
    · have hrun1 : (runWebSubmits st2 (r :: rs)).1 =
        st2.uuidStream st2.drawn :: (runWebSubmits st' rs).1 := by
        simp [runWebSubmits, hok]
      rw [hrun1]
      refine List.pairwise_cons.mpr ⟨?_, ih st' (by rw [hu', hst2])⟩
      intro jid hjid heq
      obtain ⟨_, _, hids⟩ := runWebSubmits_ids rs st'
      obtain ⟨k, hk, hge, _⟩ := hids jid hjid
      rw [hu'] at hk
      rw [hd'] at hge
      rw [hk, hst2] at heq
      have hkk := hinj heq
      omega

/-! ### Trace projections -/

/-- Progress projection of a trace. -/
def progressesOf {α : Type} (progress : α → Nat) (tr : List α) : List Nat :=
  tr.map progress

/-- A number sequence never decreases between adjacent entries. -/
def nondecreasing : List Nat → Bool
  | [] => true
  | [_] => true
  | a :: b :: rest => Nat.ble a b && nondecreasing (b :: rest)

/-- The job record after the worker's last write. -/
def finalState {α : Type} [Inhabited α] : List α → α
  | [] => default
  | [a] => a
  | _ :: b :: rest => finalState (b :: rest)

/-! ### Claims -/

/-- Claim C1: for every job in the registry, the status sequence produced by
the submit handler and its worker thread (every state of the job's dict
entry, from insertion by `handle_file_transcription` / `do_POST` through
the last write of `transcribe_audio_file` / `_process_audio_background`)
is non-decreasing along `queued → processing → {completed | error}`, and
once a job's status is `completed` or `error` no later step of that job's
worker writes any other status — terminal states are absorbing. -/
theorem C1_status_monotone_absorbing :
    (∀ (env : Enhanced.Env) (fn : String),
      statusChainOk (statusesOf Enhanced.Job.status (Enhanced.jobTrace env fn))) ∧
    (∀ (env : Web.Env) (language : String) (now : Nat),
      statusChainOk (statusesOf Web.Job.status (Web.jobTrace env language now))) := by
  constructor
  · intro env fn
    obtain ⟨wa, stg, lm, tr⟩ := env
    cases wa <;> cases stg <;> cases lm <;> cases tr <;>
      exact ⟨rfl, absorbing_of_adjacentOk rfl⟩
  · intro env language now
    obtain ⟨stg, eng, wa, sa, wr, gr⟩ := env
    cases stg <;> cases wr <;> cases gr <;>
    · simp only [Web.jobTrace, Web.process_audio_background_writes,
        Web.initJob, writeTrace, applyWrite, statusesOf, List.scanl, List.map]
      first
        | exact ⟨rfl, absorbing_of_adjacentOk rfl⟩
        | (split <;> first
            | exact ⟨rfl, absorbing_of_adjacentOk rfl⟩
            | (split <;> exact ⟨rfl, absorbing_of_adjacentOk rfl⟩))

/-- Claim C4: whatever the outcomes of the external collaborators (tempfile
staging, Whisper import/model load, the transcription call, the Google
recognizer), the worker body runs to completion returning a record — the
embedding is a total function, so no exception crosses the worker boundary
toward a poller — and the job's final status is `completed` or `error`,
never `processing`. -/
theorem C4_worker_exceptions_contained :
    (∀ (env : Enhanced.Env) (fn : String),
      (finalState (Enhanced.jobTrace env fn)).status = .completed ∨
      (finalState (Enhanced.jobTrace env fn)).status = .error) ∧
    (∀ (env : Web.Env) (language : String) (now : Nat),
      (finalState (Web.jobTrace env language now)).status = .completed ∨
      (finalState (Web.jobTrace env language now)).status = .error) := by
  constructor
  · intro env fn
    obtain ⟨wa, stg, lm, tr⟩ := env
    cases wa <;> cases stg <;> cases lm <;> cases tr <;>
      first
        | exact Or.inl rfl
        | exact Or.inr rfl
  · intro env language now
    obtain ⟨stg, eng, wa, sa, wr, gr⟩ := env
    cases stg <;> cases wr <;> cases gr <;>
    · simp only [Web.jobTrace, Web.process_audio_background_writes,
        Web.initJob, writeTrace, applyWrite]
      first
        | exact Or.inl rfl
        | exact Or.inr rfl
        | (split <;> first
            | exact Or.inl rfl
            | exact Or.inr rfl
            | (split <;> first
                | exact Or.inl rfl
                | exact Or.inr rfl))

/-- Claim C8: every write either worker makes to its job's `progress` field
stores a value at least the previously stored one, so the observed progress
sequence is monotonically non-decreasing over the whole trace; and when
every collaborator succeeds (the success path), the final progress is 100. -/
theorem C8_progress_monotone :
    (∀ (env : Enhanced.Env) (fn : String),
      nondecreasing
        (progressesOf Enhanced.Job.progress (Enhanced.jobTrace env fn)) = true) ∧
    (∀ (env : Web.Env) (language : String) (now : Nat),
      nondecreasing
        (progressesOf Web.Job.progress (Web.jobTrace env language now)) = true) ∧
    (∀ (t fn : String),
      (finalState (Enhanced.jobTrace ⟨true, .ok (), .ok (), .ok t⟩ fn)).progress
        = 100) ∧
    (∀ (sa : Bool) (gr : Web.GoogleOutcome) (t language : String) (now : Nat),
      (finalState
        (Web.jobTrace ⟨.ok (), "whisper", true, sa, .ok t, gr⟩ language now)).progress
        = 100) ∧
    (∀ (wa : Bool) (wr : Except String String) (t language : String) (now : Nat),
      (finalState
        (Web.jobTrace ⟨.ok (), "google", wa, true, wr, .ok t⟩ language now)).progress
        = 100) := by
  refine ⟨?_, ?_, ?_, ?_, ?_⟩
  · intro env fn
    obtain ⟨wa, stg, lm, tr⟩ := env
    cases wa <;> cases stg <;> cases lm <;> cases tr <;> rfl
  · intro env language now
    obtain ⟨stg, eng, wa, sa, wr, gr⟩ := env
    cases stg <;> cases wr <;> cases gr <;>
    · simp only [Web.jobTrace, Web.process_audio_background_writes,
        Web.initJob, writeTrace, applyWrite, progressesOf, List.scanl, List.map]
      first
        | rfl
        | (split <;> first
            | rfl
            | (split <;> rfl))
  · intro t fn; rfl
  · intro sa gr t language now
    simp only [Web.jobTrace, Web.process_audio_background_writes,
      Web.initJob, writeTrace, applyWrite]
    split
    · rfl
    · simp_all
  · intro wa wr t language now
    simp only [Web.jobTrace, Web.process_audio_background_writes,
      Web.initJob, writeTrace, applyWrite]
    split
    · simp_all
    · split
      · rfl
      · simp_all

/-- Claim C2: over a registry lifetime, any two distinct accepted submit
calls return distinct job ids — unconditionally for the counter-based
enhanced registry (`job_counter` is incremented under `job_lock` before
`str(job_counter)` is taken), and for the uuid-based web registry whenever
the opaque `uuid.uuid4()` token stream is injective (fresh token per
submission). -/
theorem C2_job_ids_unique :
    (∀ (decode : String → Except String (List Nat)) (st : Enhanced.Registry)
       (reqs : List (Option String × Option String)),
      ((runEnhancedSubmits decode st reqs).1).Pairwise (· ≠ ·)) ∧
    (∀ (st : Web.Registry), Function.Injective st.uuidStream →
      ∀ (reqs : List (Option (List Nat) × String × String × Nat)),
        ((runWebSubmits st reqs).1).Pairwise (· ≠ ·)) := by
  constructor
  · intro decode st reqs
    exact runEnhancedSubmits_pairwise decode reqs st
  · intro st hinj reqs
    exact runWebSubmits_pairwise st hinj reqs st rfl

/-- Witness for C2: two concrete accepted submissions in each registry give
distinct ids; the concrete uuid stream `Nat.repr` is injective. -/
theorem C2_job_ids_unique_witness :
    Function.Injective
      (Web.Registry.uuidStream { jobs := [], uuidStream := Nat.repr, drawn := 0 }) ∧
    ((runWebSubmits { jobs := [], uuidStream := Nat.repr, drawn := 0 }
        [(some (List.replicate 100 0), "google", "en-US", 0),
         (some (List.replicate 100 0), "google", "en-US", 1)]).1).Pairwise (· ≠ ·) ∧
    ((runEnhancedSubmits (fun _ => .ok []) { jobs := [], counter := 0 }
        [(some "YQ==", some "a.wav"), (some "Yg==", some "b.wav")]).1).Pairwise
      (· ≠ ·) :=
  ⟨natRepr_injective,
   C2_job_ids_unique.2 _ natRepr_injective _,
   C2_job_ids_unique.1 _ _ _⟩

/-- Claim C7: polling a job id that was never issued returns the not-found
response — a constant, so the same unknown id always yields the same
response, with no exception and the registry left unchanged — in both the
enhanced poll endpoint (`{'status': 'not_found', 'error': 'Job not found'}`,
also for an absent/empty id parameter) and the web poll endpoint
(`{'status': 'error', 'error': 'Job not found'}`). -/
theorem C7_poll_unknown_notfound :
    (∀ (st : Enhanced.Registry) (id : String), st.jobs.lookup id = none →
      Enhanced.do_GET_job_status st (some id) = (Enhanced.notFoundResponse, st)) ∧
    (∀ (st : Enhanced.Registry),
      Enhanced.do_GET_job_status st none = (Enhanced.notFoundResponse, st)) ∧
    (∀ (st : Web.Registry) (id : String), st.jobs.lookup id = none →
      Web.do_GET_status st id = (.notFound, st)) := by
  refine ⟨?_, ?_, ?_⟩
  · intro st id hlk
    by_cases hid : id = "" <;>
      simp [Enhanced.do_GET_job_status, Enhanced.job_status_response, hid, hlk]
  · intro st
    rfl
  · intro st id hlk
    simp [Web.do_GET_status, hlk]

/-- Witness for C7: concrete unknown ids on concrete registries. -/
theorem C7_poll_unknown_notfound_witness :
    (Enhanced.do_GET_job_status { jobs := [], counter := 0 } (some "42") =
      (Enhanced.notFoundResponse, { jobs := [], counter := 0 })) ∧
    (Web.do_GET_status { jobs := [], uuidStream := Nat.repr, drawn := 0 } "42" =
      (.notFound, { jobs := [], uuidStream := Nat.repr, drawn := 0 })) :=
  ⟨C7_poll_unknown_notfound.1 _ "42" rfl,
   C7_poll_unknown_notfound.2.2 _ "42" rfl⟩

/-- Claim C10: the multipart submit handler of the web converter rejects any
request whose extracted audio payload is missing or shorter than 100 bytes
(`if not audio_data or len(audio_data) < 100: raise ValueError(...)`): the
response is the 500 error and no job record is created, so a non-empty
99-byte submission never yields a job id. -/
theorem C10_short_payload_rejected :
    ∀ (st : Web.Registry) (a : List Nat) (engine language : String) (now : Nat),
      a.length < 100 →
      Web.do_POST st (some a) engine language now =
        (.err "No valid audio data received", st) ∧
      Web.do_POST st none engine language now =
        (.err "No valid audio data received", st) := by
  intro st a engine language now hlen
  constructor
  · simp [Web.do_POST, hlen]
  · rfl

/-- Witness for C10: a concrete non-empty 99-byte payload is rejected and
the registry is unchanged. -/
theorem C10_short_payload_rejected_witness :
    (List.replicate 99 1).length < 100 ∧
    Web.do_POST { jobs := [], uuidStream := Nat.repr, drawn := 0 }
        (some (List.replicate 99 1)) "google" "en-US" 0 =
      (.err "No valid audio data received",
       { jobs := [], uuidStream := Nat.repr, drawn := 0 }) :=
  ⟨by simp,
   (C10_short_payload_rejected _ _ "google" "en-US" 0 (by simp)).1⟩

/-- Witness for C1: concrete traces of both workers satisfy the lifecycle
property. -/
theorem C1_status_monotone_absorbing_witness :
    statusChainOk (statusesOf Enhanced.Job.status
      (Enhanced.jobTrace ⟨true, .ok (), .ok (), .ok "hi"⟩ "a.wav")) ∧
    statusChainOk (statusesOf Web.Job.status
      (Web.jobTrace ⟨.ok (), "whisper", true, false, .ok "hi", .unknownValue⟩
        "en-US" 0)) :=
  ⟨C1_status_monotone_absorbing.1 _ _, C1_status_monotone_absorbing.2 _ _ _⟩

/-- Counterexample to claim C5 as stated: in the enhanced converter's submit
handler there is no emptiness check, so the empty payload (`data['audio'] =
""`, which base64-decodes to `b""`) is accepted — a job id is returned and a
job record is created, where the claim requires a synchronous `InvalidInput`
with no job. -/
theorem C5_counterexample :
    (Enhanced.handle_file_transcription (fun _ => .ok []) { jobs := [], counter := 0 }
        (some "") (some "a.wav")).1 = .ok "1" ∧
    (Enhanced.handle_file_transcription (fun _ => .ok []) { jobs := [], counter := 0 }
        (some "") (some "a.wav")).2.jobs.length = 1 :=
  ⟨rfl, rfl⟩

/-- Claim C5 amended: the simple converter's submit rejects a missing or
empty payload synchronously (`ValueError` → error response) with no job
created, and accepts any non-empty payload the base64 decoder accepts,
raising no error; the enhanced converter's submit, by contrast, performs no
emptiness check: an empty payload that the decoder accepts still creates a
job and returns its id. -/
theorem C5_empty_payload :
    (∀ (decode : String → Except String (List Nat)) (st : Simple.Registry)
       (fn : Option String) (now : Nat),
      Simple.do_POST decode st none fn now = (.err "No audio data received", st) ∧
      Simple.do_POST decode st (some "") fn now =
        (.err "No audio data received", st)) ∧
    (∀ (decode : String → Except String (List Nat)) (st : Simple.Registry)
       (s : String) (a : List Nat) (fn : Option String) (now : Nat),
      s ≠ "" → decode s = .ok a →
      (Simple.do_POST decode st (some s) fn now).1 =
        .ok (st.uuidStream st.drawn)) ∧
    (∀ (decode : String → Except String (List Nat)) (st : Enhanced.Registry)
       (fn : Option String),
      decode "" = .ok [] →
      (Enhanced.handle_file_transcription decode st (some "") fn).1 =
        .ok (Nat.repr (st.counter + 1)) ∧
      (Enhanced.handle_file_transcription decode st (some "") fn).2.jobs.length =
        st.jobs.length + 1) := by
  refine ⟨?_, ?_, ?_⟩
  · intro decode st fn now
    exact ⟨rfl, rfl⟩
  · intro decode st s a fn now hs hd
    simp [Simple.do_POST, hs, hd]
  · intro decode st fn hd
    constructor
    · simp [Enhanced.handle_file_transcription, hd]
    · simp [Enhanced.handle_file_transcription, hd]

/-- Witness for C5 (amended): concrete rejection of the empty payload by the
simple converter, concrete acceptance of a non-empty one, and concrete
job creation for the empty payload in the enhanced converter. -/
theorem C5_empty_payload_witness :
    (Simple.do_POST (fun _ => .ok [97]) { jobs := [], uuidStream := Nat.repr, drawn := 0 }
        (some "") (some "a.wav") 0 =
      (.err "No audio data received",
       { jobs := [], uuidStream := Nat.repr, drawn := 0 })) ∧
    ((Simple.do_POST (fun _ => .ok [97]) { jobs := [], uuidStream := Nat.repr, drawn := 0 }
        (some "YQ==") (some "a.wav") 0).1 = .ok (Nat.repr 0)) ∧
    ((Enhanced.handle_file_transcription (fun _ => .ok []) { jobs := [], counter := 4 }
        (some "") (some "a.wav")).1 = .ok (Nat.repr 5)) :=
  ⟨(C5_empty_payload.1 (fun _ => .ok [97]) _ (some "a.wav") 0).2,
   C5_empty_payload.2.1 (fun _ => .ok [97]) _ "YQ==" [97] (some "a.wav") 0
     (by decide) rfl,
   (C5_empty_payload.2.2 (fun _ => .ok []) _ (some "a.wav") rfl).1⟩

/-- Counterexample to claim C6 as stated: the record the enhanced converter
inserts at submission has status `processing`, not `queued`. -/
theorem C6_counterexample :
    ((Enhanced.handle_file_transcription (fun _ => .ok [97]) { jobs := [], counter := 0 }
        (some "YQ==") (some "a.wav")).2.jobs.head?.map (fun p => p.2.status)) =
      some .processing ∧
    Status.processing ≠ Status.queued :=
  ⟨rfl, by decide⟩

/-- Claim C6 amended: at the moment of insertion, before any worker step,
the simple and multipart web converters insert a job record with status
`queued` and progress 0, while the enhanced converter inserts one with
status `processing` and progress 0. -/
theorem C6_inserted_record :
    (∀ (decode : String → Except String (List Nat)) (st : Simple.Registry)
       (s : String) (a : List Nat) (fn : Option String) (now : Nat),
      s ≠ "" → decode s = .ok a →
      (Simple.do_POST decode st (some s) fn now).2.jobs =
        (st.uuidStream st.drawn,
         { status := .queued, progress := 0, filename := fn.getD "audio.wav",
           createdAt := now }) :: st.jobs) ∧
    (∀ (st : Web.Registry) (a : List Nat) (engine language : String) (now : Nat),
      100 ≤ a.length →
      (Web.do_POST st (some a) engine language now).2.jobs =
        (st.uuidStream st.drawn,
         { status := .queued, progress := 0, engine := engine,
           language := language, createdAt := now }) :: st.jobs) ∧
    (∀ (decode : String → Except String (List Nat)) (st : Enhanced.Registry)
       (s : String) (a : List Nat) (fn : Option String),
      decode s = .ok a →
      (Enhanced.handle_file_transcription decode st (some s) fn).2.jobs =
        (Nat.repr (st.counter + 1),
         { status := .processing, progress := 0,
           filename := fn.getD "audio.wav" }) :: st.jobs) := by
  refine ⟨?_, ?_, ?_⟩
  · intro decode st s a fn now hs hd
    simp [Simple.do_POST, hs, hd]
  · intro st a engine language now hlen
    have h2 : ¬ a.length < 100 := by omega
    simp [Web.do_POST, h2]
  · intro decode st s a fn hd
    simp [Enhanced.handle_file_transcription, hd]

/-- Witness for C6 (amended): concrete insertions in all three registries. -/
theorem C6_inserted_record_witness :
    ((Simple.do_POST (fun _ => .ok [97])
        { jobs := [], uuidStream := Nat.repr, drawn := 0 }
        (some "YQ==") (some "a.wav") 7).2.jobs =
      [(Nat.repr 0,
        { status := .queued, progress := 0, filename := "a.wav",
          createdAt := 7 })]) ∧
    ((Web.do_POST { jobs := [], uuidStream := Nat.repr, drawn := 0 }
        (some (List.replicate 100 1)) "google" "en-US" 7).2.jobs =
      [(Nat.repr 0,
        { status := .queued, progress := 0, engine := "google",
          language := "en-US", createdAt := 7 })]) ∧
    ((Enhanced.handle_file_transcription (fun _ => .ok [97])
        { jobs := [], counter := 0 } (some "YQ==") (some "a.wav")).2.jobs =
      [(Nat.repr 1,
        { status := .processing, progress := 0, filename := "a.wav" })]) :=
  ⟨C6_inserted_record.1 (fun _ => .ok [97]) _ "YQ==" [97] (some "a.wav") 7
     (by decide) rfl,
   C6_inserted_record.2.1 _ (List.replicate 100 1) "google" "en-US" 7 (by simp),
   C6_inserted_record.2.2 (fun _ => .ok [97]) _ "YQ==" [97] (some "a.wav") rfl⟩

/-- Counterexample to claim C9 as stated: in the enhanced converter the
success-path terminal update is three separate statements (status, then
result, then progress), so the trace state right after the status write —
index 6 of the trace — has status `completed` while `result` is still
absent and progress is still 90: an interleaved poll can observe it. -/
theorem C9_counterexample :
    ((Enhanced.jobTrace ⟨true, .ok (), .ok (), .ok "hello world"⟩ "a.wav").getD
        6 default).status = .completed ∧
    ((Enhanced.jobTrace ⟨true, .ok (), .ok (), .ok "hello world"⟩ "a.wav").getD
        6 default).result = none ∧
    ((Enhanced.jobTrace ⟨true, .ok (), .ok (), .ok "hello world"⟩ "a.wav").getD
        6 default).progress = 90 ∧
    6 < (Enhanced.jobTrace ⟨true, .ok (), .ok (), .ok "hello world"⟩ "a.wav").length :=
  ⟨rfl, rfl, rfl, by decide⟩

/-- Claim C9 amended: in the web converter the success terminal update is a
single `dict.update`, so every observable state with status `completed` (on
a success path of either engine) already carries the result text and
progress 100; in the enhanced converter the terminal update is three
separate writes ordered status, result, progress, so a poll between them
can observe `completed` with the result still absent and progress 90, and
only the final state carries `completed`, the text and progress 100. -/
theorem C9_terminal_write :
    (∀ (sa : Bool) (gr : Web.GoogleOutcome) (t language : String) (now : Nat)
       (j : Web.Job),
      j ∈ Web.jobTrace ⟨.ok (), "whisper", true, sa, .ok t, gr⟩ language now →
      j.status = .completed →
      j.text = some t.trim ∧ j.progress = 100) ∧
    (∀ (wa : Bool) (wr : Except String String) (t language : String) (now : Nat)
       (j : Web.Job),
      j ∈ Web.jobTrace ⟨.ok (), "google", wa, true, wr, .ok t⟩ language now →
      j.status = .completed →
      j.text = some t ∧ j.progress = 100) ∧
    (∀ (t fn : String),
      (finalState (Enhanced.jobTrace ⟨true, .ok (), .ok (), .ok t⟩ fn)).status =
        .completed ∧
      (finalState (Enhanced.jobTrace ⟨true, .ok (), .ok (), .ok t⟩ fn)).result =
        some (if t.trim = "" then Enhanced.noSpeechText else t.trim) ∧
      (finalState (Enhanced.jobTrace ⟨true, .ok (), .ok (), .ok t⟩ fn)).progress =
        100 ∧
      ((Enhanced.jobTrace ⟨true, .ok (), .ok (), .ok t⟩ fn).getD 6 default).status =
        .completed ∧
      ((Enhanced.jobTrace ⟨true, .ok (), .ok (), .ok t⟩ fn).getD 6 default).result =
        none) := by
  refine ⟨?_, ?_, ?_⟩
  · intro sa gr t language now j hj hs
    simp [Web.jobTrace, Web.process_audio_background_writes, Web.initJob,
      writeTrace, applyWrite, List.scanl] at hj
    rcases hj with rfl | rfl | rfl | rfl <;>
      first
        | exact ⟨rfl, rfl⟩
        | simp_all
  · intro wa wr t language now j hj hs
    simp [Web.jobTrace, Web.process_audio_background_writes, Web.initJob,
      writeTrace, applyWrite, List.scanl] at hj
    rcases hj with rfl | rfl | rfl | rfl <;>
      first
        | exact ⟨rfl, rfl⟩
        | simp_all
  · intro t fn
    exact ⟨rfl, rfl, rfl, rfl, rfl⟩

/-- Witness for C9 (amended): the completed snapshot of a concrete
successful web job carries its text and progress 100. -/
theorem C9_terminal_write_witness :
    ({ status := .completed, progress := 100, engine := "google",
       language := "en-US", createdAt := 0, success := some true,
       text := some "hi", error := none } : Web.Job) ∈
      Web.jobTrace ⟨.ok (), "google", false, true, .error "x", .ok "hi"⟩
        "en-US" 0 ∧
    (({ status := .completed, progress := 100, engine := "google",
        language := "en-US", createdAt := 0, success := some true,
        text := some "hi", error := none } : Web.Job).text = some "hi" ∧
     ({ status := .completed, progress := 100, engine := "google",
        language := "en-US", createdAt := 0, success := some true,
        text := some "hi", error := none } : Web.Job).progress = 100) :=
  ⟨by decide,
   C9_terminal_write.2.1 false (.error "x") "hi" "en-US" 0 _ (by decide) rfl⟩

/-- A trace is clean before terminal states: every state whose status is not
yet terminal has both payload fields (result/text and error) absent. -/
def cleanBeforeTerminal {α : Type} (status : α → Status) (f g : α → Option String)
    (tr : List α) : Bool :=
  tr.all (fun j => (status j).isTerminal || ((f j).isNone && (g j).isNone))

theorem cleanBeforeTerminal_fields {α : Type} {status : α → Status}
    {f g : α → Option String} {tr : List α}
    (h : cleanBeforeTerminal status f g tr = true) :
    ∀ j ∈ tr, (status j).isTerminal = false → f j = none ∧ g j = none := by
  intro j hj hterm
  have h2 := List.all_eq_true.mp h j hj
  rw [hterm] at h2
  simp [Option.isNone_iff_eq_none] at h2
  exact h2

theorem engineUnavailableMsg_ne_empty (env : Web.Env) :
    Web.engineUnavailableMsg env ≠ "" := by
  unfold Web.engineUnavailableMsg
  first
    | exact append_ne_empty_left _ _ (by decide)
    | exact append_ne_empty_left _ _ (append_ne_empty_left _ _ (by decide))
    | exact append_ne_empty_left _ _
        (append_ne_empty_left _ _ (append_ne_empty_left _ _ (by decide)))

/-- Counterexample to claim C3 as stated: in the web converter, when Google
recognition raises `UnknownValueError` the worker marks the job `completed`
with `success: False`, a non-empty `error` message and no result text — a
completed job carrying an error field, which the claim forbids. -/
theorem C3_counterexample :
    (finalState (Web.jobTrace ⟨.ok (), "google", false, true, .ok "", .unknownValue⟩
        "en-US" 0)).status = .completed ∧
    (finalState (Web.jobTrace ⟨.ok (), "google", false, true, .ok "", .unknownValue⟩
        "en-US" 0)).error = some Web.couldNotUnderstandMsg ∧
    (finalState (Web.jobTrace ⟨.ok (), "google", false, true, .ok "", .unknownValue⟩
        "en-US" 0)).text = none ∧
    Web.couldNotUnderstandMsg ≠ "" :=
  ⟨rfl, rfl, rfl, by decide⟩

/-- Claim C3 amended: in the enhanced converter, every job finishing
`completed` carries a non-empty result (the stripped text, or the no-speech
sentinel) and no error, every job finishing `error` carries a non-empty
error and no result, and both fields are absent before a terminal status.
In the web converter the same holds with the qualifications its code
forces: a completed job with `success: True` carries a text (the raw
stripped transcription — possibly empty — so only presence is guaranteed)
and no error, while the Google `UnknownValueError` path finishes
`completed` with `success: False`, a non-empty error and no text; error
jobs carry a non-empty error and no text; and both fields are absent before
a terminal status. -/
theorem C3_result_error_fields :
    (∀ (env : Enhanced.Env) (fn : String),
      ((finalState (Enhanced.jobTrace env fn)).status = .completed →
        (∃ t, (finalState (Enhanced.jobTrace env fn)).result = some t ∧ t ≠ "") ∧
        (finalState (Enhanced.jobTrace env fn)).error = none) ∧
      ((finalState (Enhanced.jobTrace env fn)).status = .error →
        (∃ m, (finalState (Enhanced.jobTrace env fn)).error = some m ∧ m ≠ "") ∧
        (finalState (Enhanced.jobTrace env fn)).result = none)) ∧
    (∀ (env : Enhanced.Env) (fn : String) (j : Enhanced.Job),
      j ∈ Enhanced.jobTrace env fn → j.status.isTerminal = false →
      j.result = none ∧ j.error = none) ∧
    (∀ (env : Web.Env) (language : String) (now : Nat),
      ((finalState (Web.jobTrace env language now)).status = .error →
        (∃ m, (finalState (Web.jobTrace env language now)).error = some m ∧ m ≠ "") ∧
        (finalState (Web.jobTrace env language now)).text = none) ∧
      ((finalState (Web.jobTrace env language now)).status = .completed →
        ((finalState (Web.jobTrace env language now)).success = some true →
          (∃ t2, (finalState (Web.jobTrace env language now)).text = some t2) ∧
          (finalState (Web.jobTrace env language now)).error = none) ∧
        ((finalState (Web.jobTrace env language now)).success = some false →
          (∃ m, (finalState (Web.jobTrace env language now)).error = some m ∧
            m ≠ "") ∧
          (finalState (Web.jobTrace env language now)).text = none))) ∧
    (∀ (env : Web.Env) (language : String) (now : Nat) (j : Web.Job),
      j ∈ Web.jobTrace env language now → j.status.isTerminal = false →
      j.text = none ∧ j.error = none) := by
  refine ⟨?_, ?_, ?_, ?_⟩
  · intro env fn
    obtain ⟨wa, stg, lm, tr⟩ := env
    cases wa <;> cases stg <;> cases lm <;> cases tr <;>
      refine ⟨fun h => ?_, fun h => ?_⟩ <;>
        first
          | (exfalso
             revert h
             simp [Enhanced.jobTrace, Enhanced.transcribe_audio_file_writes,
               Enhanced.initJob, writeTrace, applyWrite, List.scanl, finalState]
             done)
          | exact ⟨⟨Enhanced.whisperMissingMsg, ⟨rfl, by decide⟩⟩, rfl⟩
          | exact ⟨⟨_, ⟨rfl, append_ne_empty_left _ _ (by decide)⟩⟩, rfl⟩
          | (refine ⟨⟨_, ⟨rfl, ?_⟩⟩, rfl⟩
             split
             · decide
             · assumption)
  · intro env fn
    apply cleanBeforeTerminal_fields
    obtain ⟨wa, stg, lm, tr⟩ := env
    cases wa <;> cases stg <;> cases lm <;> cases tr <;> rfl
  · intro env language now
    obtain ⟨stg, eng, wa, sa, wr, gr⟩ := env
    cases stg <;> cases wr <;> cases gr <;>
    · simp only [Web.jobTrace, Web.process_audio_background_writes,
        Web.initJob, writeTrace, applyWrite, List.scanl]
      first
        | (refine ⟨fun h => ?_, fun h => ⟨fun hs => ?_, fun hs => ?_⟩⟩ <;>
            first
              | (exfalso
                 revert h
                 simp [finalState, List.scanl, applyWrite]
                 done)
              | (exfalso
                 revert hs
                 simp [finalState, List.scanl, applyWrite]
                 done)
              | exact ⟨⟨_, ⟨rfl, append_ne_empty_left _ _ (by decide)⟩⟩, rfl⟩
              | exact ⟨⟨Web.couldNotUnderstandMsg, ⟨rfl, by decide⟩⟩, rfl⟩
              | exact ⟨⟨_, ⟨rfl, engineUnavailableMsg_ne_empty _⟩⟩, rfl⟩
              | exact ⟨⟨_, rfl⟩, rfl⟩)
        | (split <;>
            first
              | (refine ⟨fun h => ?_, fun h => ⟨fun hs => ?_, fun hs => ?_⟩⟩ <;>
                  first
                    | (exfalso
                       revert h
                       simp [finalState, List.scanl, applyWrite]
                       done)
                    | (exfalso
                       revert hs
                       simp [finalState, List.scanl, applyWrite]
                       done)
                    | exact ⟨⟨_, ⟨rfl, append_ne_empty_left _ _ (by decide)⟩⟩, rfl⟩
                    | exact ⟨⟨Web.couldNotUnderstandMsg, ⟨rfl, by decide⟩⟩, rfl⟩
                    | exact ⟨⟨_, ⟨rfl, engineUnavailableMsg_ne_empty _⟩⟩, rfl⟩
                    | exact ⟨⟨_, rfl⟩, rfl⟩)
              | (split <;>
                  refine ⟨fun h => ?_, fun h => ⟨fun hs => ?_, fun hs => ?_⟩⟩ <;>
                    first
                      | (exfalso
                         revert h
                         simp [finalState, List.scanl, applyWrite]
                         done)
                      | (exfalso
                         revert hs
                         simp [finalState, List.scanl, applyWrite]
                         done)
                      | exact ⟨⟨_, ⟨rfl, append_ne_empty_left _ _ (by decide)⟩⟩, rfl⟩
                      | exact ⟨⟨Web.couldNotUnderstandMsg, ⟨rfl, by decide⟩⟩, rfl⟩
                      | exact ⟨⟨_, ⟨rfl, engineUnavailableMsg_ne_empty _⟩⟩, rfl⟩
                      | exact ⟨⟨_, rfl⟩, rfl⟩))
  · intro env language now
    apply cleanBeforeTerminal_fields
    obtain ⟨stg, eng, wa, sa, wr, gr⟩ := env
    cases stg <;> cases wr <;> cases gr <;>
    · simp only [Web.jobTrace, Web.process_audio_background_writes,
        Web.initJob, writeTrace, applyWrite, List.scanl]
      first
        | rfl
        | (split <;> first | rfl | (split <;> rfl))

/-- Witness for C3 (amended): a concrete failed enhanced job carries a
non-empty error and no result, and a concrete pre-terminal state has both
fields absent. -/
theorem C3_result_error_fields_witness :
    ((∃ m, (finalState (Enhanced.jobTrace ⟨false, .ok (), .ok (), .ok "hi"⟩
        "a.wav")).error = some m ∧ m ≠ "") ∧
     (finalState (Enhanced.jobTrace ⟨false, .ok (), .ok (), .ok "hi"⟩
        "a.wav")).result = none) ∧
    (Enhanced.initJob "a.wav" ∈ Enhanced.jobTrace ⟨false, .ok (), .ok (), .ok "hi"⟩
        "a.wav" ∧
     (Enhanced.initJob "a.wav").result = none ∧
     (Enhanced.initJob "a.wav").error = none) :=
  ⟨(C3_result_error_fields.1 ⟨false, .ok (), .ok (), .ok "hi"⟩ "a.wav").2 rfl,
   by decide,
   (C3_result_error_fields.2.1 ⟨false, .ok (), .ok (), .ok "hi"⟩ "a.wav"
      (Enhanced.initJob "a.wav") (by decide) rfl).1,
   (C3_result_error_fields.2.1 ⟨false, .ok (), .ok (), .ok "hi"⟩ "a.wav"
      (Enhanced.initJob "a.wav") (by decide) rfl).2⟩
